import Mathlib

/-!
# Verification of the booking chat server against its specification

Shallow embedding of the server-side components of the repository:

* the JSON wire envelope (`lib/common/include/common/NetworkMessage.h`),
* the per-room state (`src/src/server/ChatRoom.cpp`, `src/include/ChatRoom.h`),
* the token authority (`src/lib/auth/src/AuthManager.cpp`),
* the token-validation cache and the per-connection session machine
  (`src/src/server/ClientManager.cpp`),
* the file-backed user store (`src/lib/auth/src/FileUserRepository.cpp`).

C++ `std::string` is modelled as Lean `String`; machine time
(`std::chrono` time points) as seconds in `Nat`; socket writes as an
accumulated list of `(fd, payload)` pairs; an `fd` as `Int`.
-/

namespace Booking

/-! ## JSON values

`NetworkMessage` serializes through `nlohmann::json`.  An `nlohmann::json`
object keeps its members in a `std::map`, so `dump()` prints keys in
sorted order with no interior whitespace.  The model covers the value
fragment the wire protocol produces: strings, arrays, objects, and the
`null` returned by `operator[]` on a missing key.  (Numbers and booleans
never occur in any message this system builds; an incoming document that
uses them is outside the modelled subset and parses to `none`, which the
caller treats like the thrown-and-caught `json::exception` path.) -/

inductive Json where
| null : Json
| str (s : String) : Json
| arr (elems : List Json) : Json
| obj (members : List (String × Json)) : Json

/-- Assoc lookup among an object's members (first match, as in `std::map`
with unique keys). -/
def jfind (members : List (String × Json)) (key : String) : Option Json :=
  match members with
  | [] => none
  | (k, v) :: rest => if k = key then some v else jfind rest key

/-- `j[key]` on a parsed document: the member if present, else `null`
(`operator[]` on a missing key yields a null value). -/
def Json.index (j : Json) (key : String) : Json :=
  match j with
  | .obj ms => (jfind ms key).getD .null
  | _ => .null

/-- `j.value(key, dflt)` for a string default: `some dflt` when the key is
missing, the stored string when present, and `none` for the throwing
paths (`j` not an object, or the member not a string). -/
def Json.valueStr (j : Json) (key : String) (dflt : String) : Option String :=
  match j with
  | .obj ms =>
    match jfind ms key with
    | none => some dflt
    | some (.str s) => some s
    | some _ => none
  | _ => none

/-- `j.value(key, json::object())`: the member when present (any type),
else an empty object; `none` when `j` is not an object. -/
def Json.valueJson (j : Json) (key : String) : Option Json :=
  match j with
  | .obj ms => some ((jfind ms key).getD (.obj []))
  | _ => none

/-! ### `dump()`: the nlohmann serializer (`ensure_ascii = false`) -/

/-- Lowercase hex digit, as `dump()` emits in `\u00XX` escapes. -/
def hexDig (n : Nat) : Char :=
  if n < 10 then Char.ofNat (48 + n) else Char.ofNat (87 + n)

/-- JSON escaping of one character, exactly as `nlohmann::json::dump`
does it: the two mandatory escapes, the five short control escapes, a
`\u00XX` escape for the remaining control characters, and everything
else verbatim. -/
def escChar (c : Char) : List Char :=
  if c = '"' then ['\\', '"']
  else if c = '\\' then ['\\', '\\']
  else if c = Char.ofNat 8 then ['\\', 'b']
  else if c = Char.ofNat 9 then ['\\', 't']
  else if c = Char.ofNat 10 then ['\\', 'n']
  else if c = Char.ofNat 12 then ['\\', 'f']
  else if c = Char.ofNat 13 then ['\\', 'r']
  else if c.toNat < 32 then
    ['\\', 'u', '0', '0', hexDig (c.toNat / 16), hexDig (c.toNat % 16)]
  else [c]

/-- Escape a whole character list. -/
def escChars (cs : List Char) : List Char :=
  cs.foldr (fun c acc => escChar c ++ acc) []

/-- A dumped string literal: quote, escaped body, quote. -/
def dumpStr (s : String) : List Char :=
  '"' :: (escChars s.data ++ ['"'])

mutual

/-- `j.dump()` as a character list: members in stored (sorted) key order,
no whitespace. -/
def dumpChars : Json → List Char
| .null => ['n', 'u', 'l', 'l']
| .str s => dumpStr s
| .arr es => '[' :: (dumpElems es ++ [']'])
| .obj ms => '{' :: (dumpMembers ms ++ ['}'])

def dumpElems : List Json → List Char
| [] => []
| [e] => dumpChars e
| e :: e' :: es => dumpChars e ++ ',' :: dumpElems (e' :: es)

def dumpMembers : List (String × Json) → List Char
| [] => []
| [(k, v)] => dumpStr k ++ ':' :: dumpChars v
| (k, v) :: m :: ms => dumpStr k ++ ':' :: dumpChars v ++ ',' :: dumpMembers (m :: ms)

end

/-! ### `json::parse` on the dumped subset

A recursive-descent parser for the value fragment above.  `dump()` emits
no interior whitespace, so none is skipped inside a document; trailing
whitespace after the document is accepted (`serialize` appends `"\n"`).
An input outside the fragment fails, which `deserialize` treats exactly
like the caught `json::exception`. -/

/-- Numeric value of a hex digit (both cases), as `\uXXXX` decoding needs. -/
def hexNib (c : Char) : Option Nat :=
  if 48 ≤ c.toNat ∧ c.toNat ≤ 57 then some (c.toNat - 48)
  else if 97 ≤ c.toNat ∧ c.toNat ≤ 102 then some (c.toNat - 87)
  else if 65 ≤ c.toNat ∧ c.toNat ≤ 70 then some (c.toNat - 55)
  else none

/-- Decode one short escape (`\"`, `\\`, `\/`, `\b`, `\f`, `\n`, `\r`, `\t`). -/
def unescChar (c : Char) : Option Char :=
  if c = '"' then some '"'
  else if c = '\\' then some '\\'
  else if c = '/' then some '/'
  else if c = 'b' then some (Char.ofNat 8)
  else if c = 'f' then some (Char.ofNat 12)
  else if c = 'n' then some (Char.ofNat 10)
  else if c = 'r' then some (Char.ofNat 13)
  else if c = 't' then some (Char.ofNat 9)
  else none

/-- Parse a string body after the opening quote: the characters up to the
closing quote, unescaping as it goes.  (Surrogate pairs are outside the
modelled subset: `dump()` only ever emits `\u00XX`.) -/
def parseJStr : List Char → Option (List Char × List Char)
| [] => none
| c :: cs =>
  if c = '"' then some ([], cs)
  else if c = '\\' then
    match cs with
    | [] => none
    | e :: cs' =>
      if e = 'u' then
        match cs' with
        | h1 :: h2 :: h3 :: h4 :: cs'' =>
          match hexNib h1, hexNib h2, hexNib h3, hexNib h4 with
          | some n1, some n2, some n3, some n4 =>
            (parseJStr cs'').map fun p =>
              (Char.ofNat (((n1 * 16 + n2) * 16 + n3) * 16 + n4) :: p.1, p.2)
          | _, _, _, _ => none
        | _ => none
      else
        match unescChar e with
        | some d => (parseJStr cs').map fun p => (d :: p.1, p.2)
        | none => none
  else (parseJStr cs).map fun p => (c :: p.1, p.2)

mutual

/-- Parse one value.  `fuel` only bounds the recursion; `jparse` supplies
more than any input can consume. -/
def parseJVal : Nat → List Char → Option (Json × List Char)
| 0, _ => none
| fuel + 1, cs =>
  match cs with
  | [] => none
  | c :: rest =>
    if c = '"' then (parseJStr rest).map fun p => (.str (String.mk p.1), p.2)
    else if c = '{' then
      match rest with
      | [] => none
      | c1 :: r =>
        if c1 = '}' then some (.obj [], r)
        else (parseJMembers fuel (c1 :: r)).map fun p => (.obj p.1, p.2)
    else if c = '[' then
      match rest with
      | [] => none
      | c1 :: r =>
        if c1 = ']' then some (.arr [], r)
        else (parseJElems fuel (c1 :: r)).map fun p => (.arr p.1, p.2)
    else none

/-- Parse one-or-more `"key":value` members and the closing `}`. -/
def parseJMembers : Nat → List Char → Option (List (String × Json) × List Char)
| 0, _ => none
| fuel + 1, cs =>
  match cs with
  | [] => none
  | c :: rest =>
    if c = '"' then
      match parseJStr rest with
      | none => none
      | some (key, r1) =>
        match r1 with
        | [] => none
        | c1 :: r2 =>
          if c1 = ':' then
            match parseJVal fuel r2 with
            | none => none
            | some (v, r3) =>
              match r3 with
              | [] => none
              | c3 :: r4 =>
                if c3 = ',' then
                  (parseJMembers fuel r4).map fun p => ((String.mk key, v) :: p.1, p.2)
                else if c3 = '}' then some ([(String.mk key, v)], r4)
                else none
          else none
    else none

/-- Parse one-or-more comma-separated values and the closing `]`. -/
def parseJElems : Nat → List Char → Option (List Json × List Char)
| 0, _ => none
| fuel + 1, cs =>
  match parseJVal fuel cs with
  | none => none
  | some (v, r) =>
    match r with
    | [] => none
    | c :: r' =>
      if c = ',' then (parseJElems fuel r').map fun p => (v :: p.1, p.2)
      else if c = ']' then some ([v], r')
      else none

end

mutual

/-- The value fragment the round-trip theorem covers: strings and
objects (the shapes every client→server envelope is built from). -/
def jsonWf : Json → Bool
| .null => false
| .str _ => true
| .arr _ => false
| .obj ms => jsonWfMembers ms

def jsonWfMembers : List (String × Json) → Bool
| [] => true
| (_, v) :: rest => jsonWf v && jsonWfMembers rest

end

/-- JSON whitespace. -/
def isWsChar (c : Char) : Bool :=
  c = ' ' || c = Char.ofNat 9 || c = Char.ofNat 10 || c = Char.ofNat 13

/-- `json::parse` over a whole string: one document, then only
whitespace may remain. -/
def jparse (s : String) : Option Json :=
  match parseJVal (s.data.length + 1) s.data with
  | some (j, rest) => if rest.all isWsChar then some j else none
  | none => none

/-! ## The wire envelope (`NetworkMessage.h`) -/

/-- `NetworkMessage::Header`. -/
structure NMHeader where
  timestamp : String
  token : String
deriving DecidableEq

/-- `NetworkMessage::Body`.  `data` is an arbitrary JSON value; the C++
default constructor leaves it `null`. -/
structure NMBody where
  type : String
  data : Json

/-- The JSON envelope. -/
structure NetworkMessage where
  header : NMHeader
  body : NMBody

/-- The default-constructed message: empty strings, null data. -/
def NetworkMessage.empty : NetworkMessage :=
  ⟨⟨"", ""⟩, ⟨"", .null⟩⟩

/-- `Header::to_json` — keys land in sorted order (`std::map`). -/
def NMHeader.toJson (h : NMHeader) : Json :=
  .obj [("timestamp", .str h.timestamp), ("token", .str h.token)]

/-- `Body::to_json`. -/
def NMBody.toJson (b : NMBody) : Json :=
  .obj [("data", b.data), ("type", .str b.type)]

/-- `Header::from_json`: `j.value` with empty-string defaults; `none` on
the throwing paths. -/
def NMHeader.fromJson (j : Json) : Option NMHeader := do
  let ts ← j.valueStr "timestamp" ""
  let tok ← j.valueStr "token" ""
  pure ⟨ts, tok⟩

/-- `Body::from_json`. -/
def NMBody.fromJson (j : Json) : Option NMBody := do
  let ty ← j.valueStr "type" ""
  let d ← j.valueJson "data"
  pure ⟨ty, d⟩

/-- `NetworkMessage::serialize`: dump of `{"body": …, "header": …}`
(sorted key order) plus a trailing newline. -/
def NetworkMessage.serialize (m : NetworkMessage) : String :=
  String.mk (dumpChars (.obj [("body", m.body.toJson), ("header", m.header.toJson)]) ++ [Char.ofNat 10])

/-- `NetworkMessage::deserialize`: parse, then rebuild header and body in
order; a failure at any point leaves the remaining fields default (the
`try`/`catch` swallows the exception after any assignments already
made). -/
def NetworkMessage.deserialize (s : String) : NetworkMessage :=
  match jparse s with
  | none => .empty
  | some j =>
    match NMHeader.fromJson (j.index "header") with
    | none => .empty
    | some h =>
      match NMBody.fromJson (j.index "body") with
      | none => ⟨h, NetworkMessage.empty.body⟩
      | some b => ⟨h, b⟩

/-! ### Factory methods

Each factory stamps `get_timestamp()` into the header; the model takes
the clock reading `ts` as an argument.  Keys of each `data` object are
listed in the sorted order `std::map` stores them in. -/

/-- `create_auth(token)`. -/
def createAuth (ts token : String) : NetworkMessage :=
  ⟨⟨ts, token⟩, ⟨"AUTH", .obj []⟩⟩

/-- `create_join_room(token, room_name)`. -/
def createJoinRoom (ts token roomName : String) : NetworkMessage :=
  ⟨⟨ts, token⟩, ⟨"JOIN_ROOM", .obj [("room_name", .str roomName)]⟩⟩

/-- `create_create_room(token, room_name)`. -/
def createCreateRoom (ts token roomName : String) : NetworkMessage :=
  ⟨⟨ts, token⟩, ⟨"CREATE_ROOM", .obj [("room_name", .str roomName)]⟩⟩

/-- `create_leave(token)`. -/
def createLeave (ts token : String) : NetworkMessage :=
  ⟨⟨ts, token⟩, ⟨"LEAVE", .obj []⟩⟩

/-- `create_chat_message(token, message)`. -/
def createChatMessage (ts token message : String) : NetworkMessage :=
  ⟨⟨ts, token⟩, ⟨"CHAT_MESSAGE", .obj [("message", .str message)]⟩⟩

/-- `create_quit(token)`. -/
def createQuit (ts token : String) : NetworkMessage :=
  ⟨⟨ts, token⟩, ⟨"QUIT", .obj []⟩⟩

/-- `create_error(error_message)` — server responses carry no token. -/
def createError (ts errorMessage : String) : NetworkMessage :=
  ⟨⟨ts, ""⟩, ⟨"ERROR", .obj [("message", .str errorMessage)]⟩⟩

/-- `create_room_joined(room_name)`. -/
def createRoomJoined (ts roomName : String) : NetworkMessage :=
  ⟨⟨ts, ""⟩, ⟨"ROOM_JOINED", .obj [("room_name", .str roomName)]⟩⟩

/-- `create_room_list(rooms)`. -/
def createRoomList (ts : String) (rooms : List String) : NetworkMessage :=
  ⟨⟨ts, ""⟩, ⟨"ROOM_LIST", .obj [("rooms", .arr (rooms.map .str))]⟩⟩

/-- `create_participant_list(participants)`. -/
def createParticipantList (ts : String) (participants : List String) : NetworkMessage :=
  ⟨⟨ts, ""⟩, ⟨"PARTICIPANT_LIST", .obj [("participants", .arr (participants.map .str))]⟩⟩

/-- `create_broadcast_message(sender, message)`. -/
def createBroadcastMessage (ts sender message : String) : NetworkMessage :=
  ⟨⟨ts, ""⟩, ⟨"MESSAGE", .obj [("message", .str message), ("sender", .str sender)]⟩⟩

/-- The `LEFT_ROOM` reply `leave_room` builds by retyping an error
envelope (`ClientManager.cpp:247-248`). -/
def leftRoomMessage (ts : String) : NetworkMessage :=
  ⟨⟨ts, ""⟩, ⟨"LEFT_ROOM", .obj [("message", .str "Left room")]⟩⟩

/-! ## ChatRoom (`ChatRoom.h` / `ChatRoom.cpp`)

Each member function runs under the room's own lock, so its body is an
atomic state transformation.  Socket writes become `(fd, payload)`
pairs, in the order the loops issue them. -/

/-- One network send: destination descriptor and raw bytes. -/
abbrev Send := Int × String

/-- `RoomClient` (`ChatRoom.h:10-14`). -/
structure RoomClient where
  fd : Int
  name : String
  ip : String
deriving DecidableEq

/-- `MAX_HISTORY_SIZE` (`ChatRoom.h:8`). -/
def MAX_HISTORY_SIZE : Nat := 100

/-- The room's mutable state: the member vector and the bounded history
deque (front = oldest). -/
structure RoomState where
  clients : List RoomClient
  history : List String
deriving DecidableEq

/-- `ChatRoom::add_client`: `push_back`. -/
def RoomState.addClient (r : RoomState) (fd : Int) (name ip : String) : RoomState :=
  { r with clients := r.clients ++ [⟨fd, name, ip⟩] }

/-- `ChatRoom::remove_client`: erase-remove of every entry with that fd. -/
def RoomState.removeClient (r : RoomState) (fd : Int) : RoomState :=
  { r with clients := r.clients.filter (fun c => c.fd ≠ fd) }

/-- `ChatRoom::has_client`. -/
def RoomState.hasClient (r : RoomState) (fd : Int) : Bool :=
  r.clients.any (fun c => c.fd = fd)

/-- `ChatRoom::add_message_internal`: `push_back`, then one `pop_front`
once the deque exceeds `MAX_HISTORY_SIZE`. -/
def addMessageInternal (history : List String) (message : String) : List String :=
  let h := history ++ [message]
  if MAX_HISTORY_SIZE < h.length then h.drop 1 else h

/-- `ChatRoom::broadcast_message(message, sender_fd)`: record in history,
then send `"BROADCAST:" ++ message` to every member except the sender,
in member order. -/
def RoomState.broadcastMessage (r : RoomState) (message : String) (senderFd : Int) :
    RoomState × List Send :=
  ({ r with history := addMessageInternal r.history message },
   (r.clients.filter (fun c => c.fd ≠ senderFd)).map
     (fun c => (c.fd, "BROADCAST:" ++ message)))

/-- `ChatRoom::send_history_to_client`: nothing when the history is
empty, otherwise the start marker, each stored message, and the end
marker. -/
def RoomState.sendHistoryToClient (r : RoomState) (clientFd : Int) : List Send :=
  if r.history.isEmpty then []
  else
    ((clientFd, "=== Chat History ===\n") :: r.history.map (fun m => (clientFd, m)))
      ++ [(clientFd, "=== End of History ===\n")]

/-- `ChatRoom::get_client_names`. -/
def RoomState.getClientNames (r : RoomState) : List String :=
  r.clients.map (fun c => c.name)

/-- `ChatRoom::get_client_fds` (declared in `src/src/ClientManager.h`'s
companion room; used by `broadcast_member_list_to_room`). -/
def RoomState.getClientFds (r : RoomState) : List Int :=
  r.clients.map (fun c => c.fd)

/-! ## The token authority (`AuthManager.cpp`, `AuthToken.h`)

Clock readings are seconds (`Nat`); `AuthToken` carries its issue and
expiry instants.  The repository lookup, the password hash, and the
random token generator are inputs (`find_user` is a store call;
`hash_password` wraps `std::hash`; `generate_token` reads a RNG). -/

/-- `User` (`AuthManager.h:13-24`). -/
structure User where
  username : String
  password_hash : String
  display_name : String
  roles : List String
deriving DecidableEq

/-- `AuthToken` (`AuthToken.h`). -/
structure AuthTokenM where
  token : String
  username : String
  display_name : String
  roles : List String
  issued_at : Nat
  expires_at : Nat
  is_valid : Bool
deriving DecidableEq

/-- The default-constructed invalid token (`AuthToken() : is_valid(false)`). -/
def AuthTokenM.invalid : AuthTokenM := ⟨"", "", "", [], 0, 0, false⟩

/-- `AuthToken::is_expired`: strictly past the expiry instant. -/
def AuthTokenM.isExpired (t : AuthTokenM) (now : Nat) : Bool :=
  t.expires_at < now

/-- The token validity window: 60 minutes (`AuthToken.h:20`), in seconds. -/
def TOKEN_VALIDITY_SECONDS : Nat := 3600

/-- The authority's token map (`active_tokens_`), under its single lock. -/
structure AuthState where
  active_tokens : List (String × AuthTokenM)
deriving DecidableEq

/-- Map lookup. -/
def AuthState.find (st : AuthState) (token : String) : Option AuthTokenM :=
  (st.active_tokens.find? (fun p => p.1 = token)).map (fun p => p.2)

/-- Map erase (all entries under the key; the map keeps keys unique). -/
def AuthState.erase (st : AuthState) (token : String) : AuthState :=
  ⟨st.active_tokens.filter (fun p => p.1 ≠ token)⟩

/-- `active_tokens_[token] = auth_token`: insert-or-assign. -/
def AuthState.store (st : AuthState) (token : String) (t : AuthTokenM) : AuthState :=
  ⟨(token, t) :: st.active_tokens.filter (fun p => p.1 ≠ token)⟩

/-- `AuthManager::authenticate` (`AuthManager.cpp:13-35`): repository
lookup, hash comparison, then a fresh 60-minute token stored and
returned; the default invalid token on a missing user or a mismatch. -/
def authenticate (st : AuthState) (findUser : String → Option User)
    (hashPassword : String → String) (now : Nat) (generated : String)
    (username password : String) : AuthTokenM × AuthState :=
  match findUser username with
  | none => (.invalid, st)
  | some user =>
    if user.password_hash ≠ hashPassword password then (.invalid, st)
    else
      let t : AuthTokenM :=
        ⟨generated, username, user.display_name, user.roles,
         now, now + TOKEN_VALIDITY_SECONDS, true⟩
      (t, st.store generated t)

/-- `AuthManager::validate_token` (`AuthManager.cpp:37-51`): absent →
`false`; expired → evict and `false`; otherwise the stored `is_valid`. -/
def validateToken (st : AuthState) (now : Nat) (token : String) : Bool × AuthState :=
  match st.find token with
  | none => (false, st)
  | some t =>
    if t.isExpired now then (false, st.erase token)
    else (t.is_valid, st)

/-- `AuthManager::revoke_token`: unconditional erase. -/
def revokeToken (st : AuthState) (token : String) : AuthState :=
  st.erase token

/-- `AuthManager::cleanup_expired_tokens`: sweep out every expired entry. -/
def cleanupExpiredTokens (st : AuthState) (now : Nat) : AuthState :=
  ⟨st.active_tokens.filter (fun p => ¬ p.2.isExpired now)⟩

/-! ## The token-validation cache (`ClientManager::validate_token`)

`token_cache_` maps a token to the `steady_clock` instant of its last
successful validation; `elapsed` is that difference truncated to whole
seconds, so times are modelled directly in seconds.  The remote check
(`AuthClient("localhost", 3001).validate_token`) is an oracle
`remote : String → Bool`. -/

/-- `TOKEN_CACHE_SECONDS` (`include/ClientManager.h:30`). -/
def TOKEN_CACHE_SECONDS : Nat := 30

/-- The outcome of one `ClientManager::validate_token` call: the boolean
result, the cache afterwards, and whether the auth server was contacted. -/
structure CacheOutcome where
  valid : Bool
  cache : List (String × Nat)
  contacted : Bool
deriving DecidableEq

/-- Cache lookup. -/
def cacheFind (cache : List (String × Nat)) (token : String) : Option Nat :=
  (cache.find? (fun p => p.1 = token)).map (fun p => p.2)

/-- `token_cache_[token] = now`: insert-or-assign. -/
def cacheStore (cache : List (String × Nat)) (token : String) (now : Nat) :
    List (String × Nat) :=
  (token, now) :: cache.filter (fun p => p.1 ≠ token)

/-- `ClientManager::validate_token` (`ClientManager.cpp:40-67`): trust a
cache entry younger than `TOKEN_CACHE_SECONDS` without contacting the
authority; otherwise ask the authority, and record the instant only
when it answers valid. -/
def cmValidateToken (cache : List (String × Nat)) (remote : String → Bool)
    (now : Nat) (token : String) : CacheOutcome :=
  match cacheFind cache token with
  | some last =>
    if now - last < TOKEN_CACHE_SECONDS then ⟨true, cache, false⟩
    else if remote token then ⟨true, cacheStore cache token now, true⟩
    else ⟨false, cache, true⟩
  | none =>
    if remote token then ⟨true, cacheStore cache token now, true⟩
    else ⟨false, cache, true⟩

/-! ## The file user store (`FileUserRepository.cpp`)

`save_to_file` writes a comment header and one CSV row per user —
despite `FileUserRepository.h:7-19` documenting a JSON
`{"users":[…]}` document.  `load_from_file` parses the same CSV back.
A `roles` vector is neither written nor read. -/

/-- `FileUserRepository::escape_csv`. -/
def escapeCsv (s : String) : String :=
  if s.data.any (fun c => c = ',' || c = '"') then
    String.mk ('"' :: (s.data.foldr (fun c acc =>
      if c = '"' then '"' :: '"' :: acc else c :: acc) ['"']))
  else s

/-- `FileUserRepository::unescape_csv`: strip surrounding quotes and
collapse doubled quotes; a field not starting with a quote is verbatim. -/
def unescapeCsv (s : String) : String :=
  match s.data with
  | '"' :: rest => String.mk (unescapeCsvBody (rest.dropLast))
  | _ => s
where
  unescapeCsvBody : List Char → List Char
  | '"' :: '"' :: rest => '"' :: unescapeCsvBody rest
  | c :: rest => c :: unescapeCsvBody rest
  | [] => []

/-- One CSV row of `save_to_file` (`FileUserRepository.cpp:61-63`):
username, password hash, and display name — no roles. -/
def userCsvRow (u : User) : String :=
  escapeCsv u.username ++ "," ++ escapeCsv u.password_hash ++ ","
    ++ escapeCsv u.display_name ++ "\n"

/-- `FileUserRepository::save_to_file`: the whole file rewritten as the
comment header plus one row per stored user (`users` in the map's
iteration order). -/
def saveToFile (users : List User) : String :=
  users.foldl (fun acc u => acc ++ userCsvRow u)
    "# User database - Format: username,password_hash,display_name\n"

/-- Split at the first occurrence of a delimiter: `getline(iss, f, d)`
consumed the delimiter; `none` when the delimiter is absent. -/
def splitFirst (cs : List Char) (d : Char) : Option (List Char × List Char) :=
  match cs with
  | [] => none
  | c :: rest =>
    if c = d then some ([], rest)
    else (splitFirst rest d).map fun p => (c :: p.1, p.2)

/-- Parse one line of the user file as `load_from_file` does
(`FileUserRepository.cpp:29-43`): `getline` up to the first comma, the
second comma, then the remainder; the third `getline` fails on an empty
remainder and the line is skipped.  Roles come back empty. -/
def parseCsvLine (line : String) : Option User :=
  match splitFirst line.data ',' with
  | none =>
    -- no comma at all: the second getline reads to EOF, the third fails
    none
  | some (u, r1) =>
    match splitFirst r1 ',' with
    | none => none
    | some (p, r2) =>
      if r2 = [] then none
      else some ⟨unescapeCsv (String.mk u), unescapeCsv (String.mk p),
                 unescapeCsv (String.mk r2), []⟩

/-- Split a character stream at newlines (the `getline` loop; a trailing
newline leaves a final empty line, which the blank-line check skips). -/
def splitOnNl : List Char → List (List Char)
| [] => [[]]
| c :: rest =>
  if c = Char.ofNat 10 then [] :: splitOnNl rest
  else
    match splitOnNl rest with
    | [] => [[c]]
    | l :: ls => (c :: l) :: ls

/-- `FileUserRepository::load_from_file`: each line, skipping blanks and
`#` comments; parsed users land in the map keyed by username. -/
def loadFromFile (content : String) : List User :=
  ((splitOnNl content.data).map String.mk).foldl
    (fun acc line =>
      if line = "" then acc
      else if line.data.head? = some '#' then acc
      else
        match parseCsvLine line with
        | none => acc
        | some u => (u :: acc.filter (fun v => v.username ≠ u.username)))
    []

/-! ## The session engine (`ClientManager.cpp`)

Shared state: the client registry (`connected_clients_`) and the room
directory (`chat_rooms_`, a `std::map`, so kept sorted by name).  The
registry stores a *copy* of each `ClientInfo` made at connect time
(`connected_clients_.push_back(client_info)`); the handlers mutate only
the `handle_client` local, so a registry copy's `current_room` stays
`""` forever.  The model reproduces that: the registry entry and the
handler-local `ClientInfo` are distinct values.

The per-message token check (`validate_token`) and the handshake lookup
(`AuthClient::get_user_info`) are oracles; `ts` is the wall-clock string
every factory stamps. -/

/-- `ClientInfo` (`include/ClientManager.h:11-17`). -/
structure ClientInfo where
  fd : Int
  name : String
  ip : String
  currentRoom : String
  token : String
deriving DecidableEq

/-- The `ClientManager` shared state. -/
structure ServerState where
  rooms : List (String × RoomState)
  clients : List ClientInfo
deriving DecidableEq

/-- Room-directory lookup (`chat_rooms_.find`). -/
def ServerState.findRoom (st : ServerState) (name : String) : Option RoomState :=
  (st.rooms.find? (fun p => p.1 = name)).map (fun p => p.2)

/-- Replace the state of an existing room (the handlers mutate the room
object the directory already points to). -/
def ServerState.setRoom (st : ServerState) (name : String) (r : RoomState) : ServerState :=
  { st with rooms := st.rooms.map (fun p => if p.1 = name then (p.1, r) else p) }

/-- `std::map` insertion keeps keys sorted. -/
def roomsInsert (name : String) (r : RoomState) :
    List (String × RoomState) → List (String × RoomState)
  | [] => [(name, r)]
  | (k, v) :: rest =>
    if name < k then (name, r) :: (k, v) :: rest
    else (k, v) :: roomsInsert name r rest

/-- `ClientManager::remove_client`: erase-remove from the registry. -/
def ServerState.removeClient (st : ServerState) (fd : Int) : ServerState :=
  { st with clients := st.clients.filter (fun c => c.fd ≠ fd) }

/-- `ClientManager::send_room_list`: one `ROOM_LIST` envelope naming
every room, in directory (sorted) order. -/
def sendRoomList (ts : String) (st : ServerState) (fd : Int) : Send :=
  (fd, (createRoomList ts (st.rooms.map (fun p => p.1))).serialize)

/-- `ClientManager::broadcast_room_list_to_foyer`: the room list to every
registry entry whose (never-updated) `current_room` is empty. -/
def broadcastRoomListToFoyer (ts : String) (st : ServerState) : List Send :=
  (st.clients.filter (fun c => c.currentRoom = "")).map
    (fun c => sendRoomList ts st c.fd)

/-- `ClientManager::broadcast_member_list_to_room`: one
`PARTICIPANT_LIST` envelope to every member of the room. -/
def broadcastMemberListToRoom (ts : String) (st : ServerState) (roomName : String) :
    List Send :=
  match st.findRoom roomName with
  | none => []
  | some room =>
    let payload := (createParticipantList ts room.getClientNames).serialize
    room.getClientFds.map (fun fd => (fd, payload))

/-- `ClientManager::create_room`: fail when the name is taken, else a
fresh empty room into the directory. -/
def ServerState.createRoom (st : ServerState) (name : String) : Bool × ServerState :=
  match st.findRoom name with
  | some _ => (false, st)
  | none => (true, { st with rooms := roomsInsert name ⟨[], []⟩ st.rooms })

/-- `ClientManager::join_room` (`ClientManager.cpp:179-217`): membership,
join notice to the others, history replay, `ROOM_JOINED`, directory to
the foyer, member list to the room. -/
def joinRoom (ts : String) (st : ServerState) (ci : ClientInfo) (roomName : String) :
    Bool × ServerState × ClientInfo × List Send :=
  match st.findRoom roomName with
  | none => (false, st, ci, [])
  | some room =>
    let ci' := { ci with currentRoom := roomName }
    let room1 := room.addClient ci.fd ci.name ci.ip
    let joinStr := (createBroadcastMessage ts "SERVER" (ci.name ++ " joined the room")).serialize
    let (room2, notices) := room1.broadcastMessage joinStr ci.fd
    let st1 := st.setRoom roomName room2
    let sends :=
      notices
        ++ room2.sendHistoryToClient ci.fd
        ++ [(ci.fd, (createRoomJoined ts roomName).serialize)]
        ++ broadcastRoomListToFoyer ts st1
        ++ broadcastMemberListToRoom ts st1 roomName
    (true, st1, ci', sends)

/-- `ClientManager::leave_room` (`ClientManager.cpp:219-254`): nothing
when not in a room; otherwise the leave notice to the others and removal
from the member set (when the room still exists), then unconditionally
clear `current_room`, send `LEFT_ROOM`, and push the directory to the
foyer.  No member list is broadcast. -/
def leaveRoom (ts : String) (st : ServerState) (ci : ClientInfo) :
    ServerState × ClientInfo × List Send :=
  if ci.currentRoom = "" then (st, ci, [])
  else
    let (st1, notices) :=
      match st.findRoom ci.currentRoom with
      | none => (st, [])
      | some room =>
        let leaveStr := (createBroadcastMessage ts "SERVER" (ci.name ++ " left the room")).serialize
        let (room1, ns) := room.broadcastMessage leaveStr ci.fd
        (st.setRoom ci.currentRoom (room1.removeClient ci.fd), ns)
    let ci' := { ci with currentRoom := "" }
    (st1, ci',
     notices ++ [(ci.fd, (leftRoomMessage ts).serialize)]
       ++ broadcastRoomListToFoyer ts st1)

/-! ### The per-connection state machine

`handle_client` (`ClientManager.cpp:378-451`) alternates between the
`handle_foyer` and `handle_room_chat` receive loops.  `sessionStep`
processes one received event in a given phase: one iteration of the
active loop body, plus the glue `handle_client` runs when that loop
returns (break to `remove_client`/`close`, or continue into the other
loop — re-entering the foyer replays `handle_foyer`'s entry
`send_room_list`, and those entry sends are attached to the transition
that enters the foyer).  An event of `none` is `recv` returning `<= 0`.

`handle_room_chat` captures its room `shared_ptr` once at entry; the
model looks the room up per event by `current_room`, which agrees with
the capture because the directory never erases or rebinds a name. -/

/-- The connection phases of the session state machine (§4.5 of the
spec: `AwaitingAuth → Foyer ⇄ Room → Disconnected`). -/
inductive Phase where
| awaitingAuth : Phase
| foyer : Phase
| room : Phase
| disconnected : Phase
deriving DecidableEq

/-- The result of one step: shared state, the handler-local
`client_info`, the next phase, and the sends issued. -/
structure StepOut where
  st : ServerState
  ci : ClientInfo
  phase : Phase
  sends : List Send
deriving DecidableEq

/-- One step of the session engine.  `validate` is
`ClientManager::validate_token` (the cached check, modelled in full as
`cmValidateToken`); `userInfo` is `AuthClient::get_user_info`, returning
the display name. -/
def sessionStep (validate : String → Bool) (userInfo : String → Option String)
    (ts : String) (st : ServerState) (ci : ClientInfo) (phase : Phase)
    (ev : Option String) : StepOut :=
  match phase with
  | .disconnected => ⟨st, ci, .disconnected, []⟩
  | .awaitingAuth =>
    match ev with
    | none => ⟨st, ci, .disconnected, []⟩                      -- 383-386: close
    | some s =>
      let m := NetworkMessage.deserialize s
      if m.body.type ≠ "AUTH" then ⟨st, ci, .disconnected, []⟩ -- 394-397: close, no reply
      else
        match userInfo m.header.token with
        | none =>                                              -- 405-411: error, close
          ⟨st, ci, .disconnected,
           [(ci.fd, (createError ts "Invalid or expired token").serialize)]⟩
        | some displayName =>                                  -- 413-425, then 429/257
          let ci' : ClientInfo := ⟨ci.fd, displayName, ci.ip, "", m.header.token⟩
          let st' := { st with clients := st.clients ++ [ci'] }
          ⟨st', ci', .foyer, [sendRoomList ts st' ci'.fd]⟩
  | .foyer =>
    match ev with
    | none =>                                                  -- 263-265 → 431-432, 449-450
      ⟨st.removeClient ci.fd, ci, .disconnected, []⟩
    | some s =>
      let m := NetworkMessage.deserialize s
      if ¬ validate m.header.token then                        -- 274-279 → return → break
        ⟨st.removeClient ci.fd, ci, .disconnected,
         [(ci.fd, (createError ts "Invalid or expired token").serialize)]⟩
      else if m.body.type = "CREATE_ROOM" then                 -- 281-297
        let roomName := (m.body.data.valueStr "room_name" "").getD ""
        match st.createRoom roomName with
        | (true, st1) =>
          match joinRoom ts st1 ci roomName with
          | (true, st2, ci', sends) =>                         -- 285-291: second foyer directory push
            ⟨st2, ci', .room, sends ++ broadcastRoomListToFoyer ts st2⟩
          | (false, st2, ci', sends) => ⟨st2, ci', .foyer, sends⟩
        | (false, st1) =>
          ⟨st1, ci, .foyer, [(ci.fd, (createError ts "Room already exists").serialize)]⟩
      else if m.body.type = "JOIN_ROOM" then                   -- 298-306
        let roomName := (m.body.data.valueStr "room_name" "").getD ""
        match joinRoom ts st ci roomName with
        | (true, st', ci', sends) => ⟨st', ci', .room, sends⟩
        | (false, _, _, _) =>
          ⟨st, ci, .foyer, [(ci.fd, (createError ts "Room not found").serialize)]⟩
      else if m.body.type = "REFRESH_ROOMS" then               -- 307-308
        ⟨st, ci, .foyer, [sendRoomList ts st ci.fd]⟩
      else if m.body.type = "QUIT" then                        -- 309-310 → return → break
        ⟨st.removeClient ci.fd, ci, .disconnected, []⟩
      else                                                     -- unmatched type: loop on, silently
        ⟨st, ci, .foyer, []⟩
  | .room =>
    match st.findRoom ci.currentRoom with
    | none =>                                                  -- 316-327 → return → 439-441 break
      ⟨st.removeClient ci.fd, ci, .disconnected, []⟩
    | some room =>
      match ev with
      | none =>                                                -- 333-334 → return → 439-441 break, 449
        ⟨st.removeClient ci.fd, ci, .disconnected, []⟩
      | some s =>
        let m := NetworkMessage.deserialize s
        if ¬ validate m.header.token then                      -- 344-349 → return → break
          ⟨st.removeClient ci.fd, ci, .disconnected,
           [(ci.fd, (createError ts "Invalid or expired token").serialize)]⟩
        else if m.body.type = "LEAVE" then                     -- 351-353 → 437-438 continue → 257
          let (st1, ci', sends) := leaveRoom ts st ci
          ⟨st1, ci', .foyer, sends ++ [sendRoomList ts st1 ci'.fd]⟩
        else if m.body.type = "QUIT" then                      -- 354-359 → continue → 257
          let (st1, ci', sends) := leaveRoom ts st ci
          ⟨st1, ci', .foyer,
           sends ++ [(ci.fd, (createError ts "Disconnected").serialize)]
             ++ [sendRoomList ts st1 ci'.fd]⟩
        else if m.body.type = "CHAT_MESSAGE" then              -- 360-374
          let message := (m.body.data.valueStr "message" "").getD ""
          let bstr := (createBroadcastMessage ts ci.name message).serialize
          let (room', sends) := room.broadcastMessage bstr ci.fd
          ⟨st.setRoom ci.currentRoom room', ci, .room, sends⟩
        else                                                   -- unmatched type: loop on, silently
          ⟨st, ci, .room, []⟩

/-! ## Concrete demonstration data

A two-client server: Alice (fd 1) and Bob (fd 2) are connected and both
members of the default room `General`; the registry holds the copies
made at connect time (`current_room` still empty there).  Alice's
handler-local `ClientInfo` records her room. -/

/-- Alice's registry entry (the copy pushed at `ClientManager.cpp:417-420`). -/
def demoAliceReg : ClientInfo := ⟨1, "Alice", "ip1", "", "tokA"⟩

/-- Bob's registry entry. -/
def demoBobReg : ClientInfo := ⟨2, "Bob", "ip2", "", "tokB"⟩

/-- The `General` room with both members and an empty history. -/
def demoRoom : RoomState := ⟨[⟨1, "Alice", "ip1"⟩, ⟨2, "Bob", "ip2"⟩], []⟩

/-- The shared server state for the scenarios. -/
def demoState : ServerState := ⟨[("General", demoRoom)], [demoAliceReg, demoBobReg]⟩

/-- Alice's handler-local `client_info` while she is in `General`. -/
def demoAlice : ClientInfo := ⟨1, "Alice", "ip1", "General", "tokA"⟩

/-- A `LEAVE` envelope as Alice's client sends it. -/
def demoLeaveWire : String := (createLeave "T" "tokA").serialize

/-- An envelope whose body type no handler knows. -/
def demoBogusWire : String :=
  (NetworkMessage.serialize ⟨⟨"T", "tokA"⟩, ⟨"BOGUS", .obj []⟩⟩)

/-! # Theorems -/

/-- **C10.** When a room's message history is empty,
`send_history_to_client` sends nothing at all — neither history lines
nor the `=== Chat History ===` / `=== End of History ===` bracketing
markers; the markers are emitted exactly when the history holds at
least one message. -/
theorem C10_history_replay_empty (r : RoomState) (fd : Int) :
    (r.sendHistoryToClient fd = [] ↔ r.history = [])
    ∧ ((fd, "=== Chat History ===\n") ∈ r.sendHistoryToClient fd ↔ r.history ≠ [])
    ∧ ((fd, "=== End of History ===\n") ∈ r.sendHistoryToClient fd ↔ r.history ≠ []) := by
  unfold RoomState.sendHistoryToClient
  cases h : r.history with
  | nil => simp
  | cons m ms => simp

/-- **C4.** `ClientManager::validate_token` trusts a cache entry younger
than 30 seconds without contacting the token authority; otherwise it
performs a real remote validation, rewriting the cache entry with the
current instant exactly when that validation succeeds — a failed
validation is never written and the check answers `false`. -/
theorem C4_token_cache (cache : List (String × Nat)) (remote : String → Bool)
    (now : Nat) (token : String) :
    (∀ last, cacheFind cache token = some last → now - last < TOKEN_CACHE_SECONDS →
      cmValidateToken cache remote now token = ⟨true, cache, false⟩)
    ∧ ((∀ last, cacheFind cache token = some last → TOKEN_CACHE_SECONDS ≤ now - last) →
      (cmValidateToken cache remote now token).contacted = true
      ∧ (remote token = true →
          cmValidateToken cache remote now token = ⟨true, cacheStore cache token now, true⟩)
      ∧ (remote token = false →
          cmValidateToken cache remote now token = ⟨false, cache, true⟩)) := by
  unfold cmValidateToken
  cases h : cacheFind cache token with
  | none =>
    refine ⟨by simp, fun _ => ?_⟩
    cases hr : remote token <;> simp [hr]
  | some last =>
    constructor
    · intro l hl hfresh
      cases hl
      simp [hfresh]
    · intro hstale
      have : ¬ now - last < TOKEN_CACHE_SECONDS := by
        have := hstale last rfl
        omega
      cases hr : remote token <;> simp [this, hr]

/-- **C4 witness**: a token validated 10 seconds ago is trusted from the
cache, untouched and without contact. -/
theorem C4_token_cache_witness :
    cmValidateToken [("tok", 5)] (fun _ => false) 15 "tok" = ⟨true, [("tok", 5)], false⟩ :=
  (C4_token_cache [("tok", 5)] (fun _ => false) 15 "tok").1 5 (by decide) (by decide)

/-- **C8.** `AuthManager::authenticate` returns the invalid token — never
a valid one — when the username has no user record or when the password
does not hash to the stored hash. -/
theorem C8_authenticate_rejects (st : AuthState) (findUser : String → Option User)
    (hashPassword : String → String) (now : Nat) (generated : String)
    (username password : String) :
    (findUser username = none →
      (authenticate st findUser hashPassword now generated username password).1.is_valid = false)
    ∧ (∀ u, findUser username = some u → hashPassword password ≠ u.password_hash →
      (authenticate st findUser hashPassword now generated username password).1.is_valid = false) := by
  constructor
  · intro h
    simp [authenticate, h, AuthTokenM.invalid]
  · intro u hu hne
    have : u.password_hash ≠ hashPassword password := fun e => hne e.symm
    simp [authenticate, hu, this, AuthTokenM.invalid]

/-- **C8 witness**: a wrong password and an unknown user each yield the
invalid token on a concrete store. -/
theorem C8_authenticate_rejects_witness :
    (authenticate ⟨[]⟩ (fun u => if u = "alice" then some ⟨"alice", "HH", "Alice", []⟩ else none)
        (fun p => p ++ "#") 0 "g" "alice" "pw").1.is_valid = false
    ∧ (authenticate ⟨[]⟩ (fun u => if u = "alice" then some ⟨"alice", "HH", "Alice", []⟩ else none)
        (fun p => p ++ "#") 0 "g" "nobody" "pw").1.is_valid = false :=
  ⟨(C8_authenticate_rejects ⟨[]⟩ _ _ 0 "g" "alice" "pw").2
      ⟨"alice", "HH", "Alice", []⟩ (by decide) (by decide),
   (C8_authenticate_rejects ⟨[]⟩ _ _ 0 "g" "nobody" "pw").1 (by decide)⟩

/-- After erasing a token the map no longer finds it. -/
theorem AuthState.find_erase_self (st : AuthState) (token : String) :
    (st.erase token).find token = none := by
  unfold AuthState.find AuthState.erase
  have hnone :
      (st.active_tokens.filter (fun p => p.1 ≠ token)).find? (fun p => p.1 = token) = none := by
    rw [List.find?_eq_none]
    intro p hp
    simpa using (List.mem_filter.mp hp).2
  simp [hnone]

/-- Every token the map stores was stored by `authenticate`, which marks
it valid, so the `is_valid` flag of a stored token is `true`; the claim
theorems take that reachable-state fact as the invariant `hinv`. -/
theorem authenticate_preserves_valid_flags (st : AuthState) (findUser : String → Option User)
    (hashPassword : String → String) (now : Nat) (generated : String)
    (username password : String)
    (hinv : ∀ p ∈ st.active_tokens, p.2.is_valid = true) :
    ∀ p ∈ (authenticate st findUser hashPassword now generated username password).2.active_tokens,
      p.2.is_valid = true := by
  unfold authenticate
  cases hu : findUser username with
  | none => simp only [hu]; exact hinv
  | some user =>
    simp only [hu]
    by_cases heq : user.password_hash = hashPassword password
    · simp only [if_neg (not_not_intro heq), AuthState.store]
      intro p hp
      rcases List.mem_cons.mp hp with h | h
      · rw [h]
      · exact hinv p (List.mem_filter.mp h).1
    · simp only [if_pos heq]
      exact hinv

/-- **C2.** Under the reachable-state invariant that every stored token
carries `is_valid = true` (established by `authenticate`, see
`authenticate_preserves_valid_flags`), `AuthManager::validate_token`
answers `true` iff the token is present in the active set and the
current time is not past its `expires_at`; an expired entry still
resident is reported invalid and is evicted by the lookup itself. -/
theorem C2_validate_token_iff (st : AuthState) (now : Nat) (token : String)
    (hinv : ∀ p ∈ st.active_tokens, p.2.is_valid = true) :
    ((validateToken st now token).1 = true ↔
      ∃ t, st.find token = some t ∧ now ≤ t.expires_at)
    ∧ (∀ t, st.find token = some t → t.expires_at < now →
      (validateToken st now token).2.find token = none) := by
  have hnone : st.find token = none → validateToken st now token = (false, st) := by
    intro h; unfold validateToken; rw [h]
  have hexp : ∀ t, st.find token = some t → t.isExpired now = true →
      validateToken st now token = (false, st.erase token) := by
    intro t h he; unfold validateToken; rw [h]; simp [he]
  have hlive : ∀ t, st.find token = some t → t.isExpired now = false →
      validateToken st now token = (t.is_valid, st) := by
    intro t h he; unfold validateToken; rw [h]; simp [he]
  cases hf : st.find token with
  | none => rw [hnone hf]; simp
  | some t =>
    have hv : t.is_valid = true := by
      unfold AuthState.find at hf
      cases hff : st.active_tokens.find? (fun p => p.1 = token) with
      | none => rw [hff] at hf; simp at hf
      | some p =>
        rw [hff] at hf
        simp at hf
        rw [← hf]
        exact hinv p (List.mem_of_find?_eq_some hff)
    cases he : t.isExpired now with
    | true =>
      have hlt : t.expires_at < now := by
        simpa [AuthTokenM.isExpired] using he
      rw [hexp t hf he]
      refine ⟨?_, ?_⟩
      · simp only [Option.some.injEq]
        constructor
        · intro h; exact absurd h (by simp)
        · rintro ⟨t', ht', hle⟩
          subst ht'
          omega
      · intro t' _ _
        exact AuthState.find_erase_self st token
    | false =>
      have hle : now ≤ t.expires_at := by
        simpa [AuthTokenM.isExpired] using he
      rw [hlive t hf he]
      refine ⟨?_, ?_⟩
      · simp only [hv, Option.some.injEq]
        exact ⟨fun _ => ⟨t, rfl, hle⟩, fun _ => trivial⟩
      · intro t' ht' hlt'
        simp only [Option.some.injEq] at ht'
        subst ht'
        omega

/-- **C2 witness**: a concrete one-token state; the unexpired lookup
answers `true`, and an expired lookup both answers `false` and evicts. -/
theorem C2_validate_token_iff_witness :
    (validateToken ⟨[("t", ⟨"t", "u", "U", [], 0, 100, true⟩)]⟩ 50 "t").1 = true
    ∧ (validateToken ⟨[("t", ⟨"t", "u", "U", [], 0, 100, true⟩)]⟩ 101 "t").2.find "t" = none :=
  ⟨(C2_validate_token_iff ⟨[("t", ⟨"t", "u", "U", [], 0, 100, true⟩)]⟩ 50 "t"
      (by decide)).1.mpr ⟨⟨"t", "u", "U", [], 0, 100, true⟩, by decide, by decide⟩,
   (C2_validate_token_iff ⟨[("t", ⟨"t", "u", "U", [], 0, 100, true⟩)]⟩ 101 "t"
      (by decide)).2 ⟨"t", "u", "U", [], 0, 100, true⟩ (by decide) (by decide)⟩

/-- **C1 (the code, evaluated at the failing input).**  Alice's `recv`
fails while she is in `General`: the step removes her from the global
client registry and closes the connection, but issues *no* sends — no
leave notice and no updated `PARTICIPANT_LIST` — and leaves her in the
room's member set (`demoRoom` is unchanged and still has fd 1), contrary
to the specified leave side effects.  `handle_room_chat` returns on
`bytes_read <= 0` without calling `leave_room`
(`ClientManager.cpp:333-334`), and `handle_client` then only runs
`remove_client` (`ClientManager.cpp:449`). -/
theorem C1_disconnect_in_room_skips_leave :
    sessionStep (fun _ => true) (fun _ => none) "T" demoState demoAlice .room none
      = ⟨⟨[("General", demoRoom)], [demoBobReg]⟩, demoAlice, .disconnected, []⟩
    ∧ demoRoom.hasClient 1 = true := by
  decide

/-- **C7 (the code, evaluated at the failing input).**  Persisting the
store after creating the single user `alice` (who has role `admin`)
writes a CSV document — a `#` comment header plus
`username,password_hash,display_name` rows — not the documented JSON
`{"users":[…]}` document: the output does not parse as JSON at all, and
reading it back loses the `roles` list. -/
theorem C7_user_store_writes_csv :
    saveToFile [⟨"alice", "h1", "Alice", ["admin"]⟩]
      = "# User database - Format: username,password_hash,display_name\nalice,h1,Alice\n"
    ∧ (jparse (saveToFile [⟨"alice", "h1", "Alice", ["admin"]⟩])).isNone = true
    ∧ loadFromFile (saveToFile [⟨"alice", "h1", "Alice", ["admin"]⟩])
      = [⟨"alice", "h1", "Alice", []⟩] := by
  decide

/-- One append keeps the history within capacity. -/
theorem addMessageInternal_length_le (h : List String) (m : String)
    (hle : h.length ≤ MAX_HISTORY_SIZE) :
    (addMessageInternal h m).length ≤ MAX_HISTORY_SIZE := by
  unfold addMessageInternal
  by_cases hc : MAX_HISTORY_SIZE < (h ++ [m]).length
  · rw [if_pos hc]
    simp only [List.length_drop, List.length_append, List.length_cons, List.length_nil]
    omega
  · rw [if_neg hc]
    simp only [List.length_append, List.length_cons, List.length_nil] at hc ⊢
    omega

/-- Within capacity, one append is a push plus a conditional single
oldest-drop, i.e. a `drop` of the overflow. -/
theorem addMessageInternal_eq_drop (h : List String) (m : String)
    (hle : h.length ≤ MAX_HISTORY_SIZE) :
    addMessageInternal h m = (h ++ [m]).drop (h.length + 1 - MAX_HISTORY_SIZE) := by
  unfold addMessageInternal
  by_cases hc : MAX_HISTORY_SIZE < (h ++ [m]).length
  · rw [if_pos hc]
    have h1 : h.length + 1 - MAX_HISTORY_SIZE = 1 := by
      simp only [List.length_append, List.length_cons, List.length_nil] at hc
      omega
    rw [h1]
  · rw [if_neg hc]
    have h0 : h.length + 1 - MAX_HISTORY_SIZE = 0 := by
      simp only [List.length_append, List.length_cons, List.length_nil] at hc
      omega
    rw [h0, List.drop_zero]

/-- Folding appends over the bounded history keeps exactly the most
recent `MAX_HISTORY_SIZE` entries, in insertion order. -/
theorem foldl_addMessageInternal (l : List String) : ∀ h : List String,
    h.length ≤ MAX_HISTORY_SIZE →
    l.foldl addMessageInternal h = (h ++ l).drop (h.length + l.length - MAX_HISTORY_SIZE) := by
  induction l with
  | nil =>
    intro h hle
    simp [Nat.sub_eq_zero_of_le hle]
  | cons m l ih =>
    intro h hle
    have hk : h.length + 1 - MAX_HISTORY_SIZE ≤ (h ++ [m]).length := by
      simp only [List.length_append, List.length_cons, List.length_nil]
      omega
    rw [List.foldl_cons, ih (addMessageInternal h m) (addMessageInternal_length_le h m hle),
        addMessageInternal_eq_drop h m hle, ← List.drop_append_of_le_length hk,
        List.drop_drop]
    have hX : (h ++ [m]) ++ l = h ++ m :: l := by simp
    rw [hX]
    congr 1
    simp only [List.length_drop, List.length_append, List.length_cons, List.length_nil]
    unfold MAX_HISTORY_SIZE at *
    omega

/-- Fan-out never changes the member set, and the history evolves by
`addMessageInternal` alone. -/
theorem foldl_broadcast_split (msgs : List String) (sender : Int) : ∀ r : RoomState,
    (msgs.foldl (fun (rm : RoomState) m => (rm.broadcastMessage m sender).1) r).history
      = msgs.foldl addMessageInternal r.history
    ∧ (msgs.foldl (fun (rm : RoomState) m => (rm.broadcastMessage m sender).1) r).clients
      = r.clients := by
  induction msgs with
  | nil => intro r; exact ⟨rfl, rfl⟩
  | cons m msgs ih =>
    intro r
    simpa [RoomState.broadcastMessage] using
      ih ⟨r.clients, addMessageInternal r.history m⟩

/-- Fan-out count: with distinct descriptors, filtering the sender out
of a member list that contains it drops exactly one entry. -/
theorem length_filter_fd_ne (sender : Int) : ∀ l : List RoomClient,
    (l.map RoomClient.fd).Nodup → sender ∈ l.map RoomClient.fd →
    (l.filter (fun c => c.fd ≠ sender)).length = l.length - 1 := by
  intro l
  induction l with
  | nil => simp
  | cons c t ih =>
    intro hnd hmem
    simp only [List.map_cons, List.nodup_cons] at hnd
    by_cases hc : c.fd = sender
    · subst hc
      have hfc : (c :: t).filter (fun x => x.fd ≠ c.fd)
          = t.filter (fun x => x.fd ≠ c.fd) := by
        simp [List.filter_cons]
      have hall : t.filter (fun x => x.fd ≠ c.fd) = t :=
        List.filter_eq_self.mpr (fun x hx => by
          simp only [decide_eq_true_eq]
          intro he
          exact hnd.1 (he ▸ List.mem_map_of_mem RoomClient.fd hx))
      rw [hfc, hall]
      simp
    · rw [List.map_cons] at hmem
      rcases List.mem_cons.mp hmem with h | h
      · exact absurd h.symm hc
      · have ht : 1 ≤ t.length := by
          cases t with
          | nil => simp at h
          | cons a t' => simp
        have ihv := ih hnd.2 h
        have hkeep : (c :: t).filter (fun x => x.fd ≠ sender)
            = c :: t.filter (fun x => x.fd ≠ sender) := by
          simp [List.filter_cons, hc]
        rw [hkeep]
        simp only [List.length_cons, ihv]
        omega

/-- **C5.** With `N` members whose descriptors are distinct and include
the sender, `broadcast_message` sends the framed message to exactly the
`N − 1` members other than the sender and appends it to the bounded
history, which never exceeds 100 entries; inserting 101 distinct
messages into a fresh history keeps exactly the last 100 in insertion
order, so the first message is gone — also from the
`send_history_to_client` replay. -/
theorem C5_broadcast_fanout_history (r : RoomState) (msg : String) (sender : Int) (n : Nat)
    (hnodup : (r.clients.map RoomClient.fd).Nodup)
    (hsender : sender ∈ r.clients.map RoomClient.fd)
    (hn : r.clients.length = n)
    (hcap : r.history.length ≤ MAX_HISTORY_SIZE) :
    ((r.broadcastMessage msg sender).2.length = n - 1
     ∧ (∀ c ∈ r.clients, c.fd ≠ sender →
         (c.fd, "BROADCAST:" ++ msg) ∈ (r.broadcastMessage msg sender).2)
     ∧ (∀ p ∈ (r.broadcastMessage msg sender).2, p.1 ≠ sender))
    ∧ (msg ∈ (r.broadcastMessage msg sender).1.history
       ∧ (r.broadcastMessage msg sender).1.history.length ≤ MAX_HISTORY_SIZE)
    ∧ (∀ (msgs : List String) (m0 : String),
        msgs.length = MAX_HISTORY_SIZE + 1 → msgs.Nodup → msgs.head? = some m0 →
        (msgs.foldl (fun (rm : RoomState) m => (rm.broadcastMessage m sender).1)
            ⟨r.clients, []⟩).history = msgs.drop 1
        ∧ m0 ∉ (msgs.foldl (fun (rm : RoomState) m => (rm.broadcastMessage m sender).1)
                  ⟨r.clients, []⟩).history) := by
  refine ⟨⟨?_, ?_, ?_⟩, ⟨?_, ?_⟩, ?_⟩
  · -- exactly N − 1 recipients
    show ((r.clients.filter (fun c => c.fd ≠ sender)).map
      (fun c => ((c.fd : Int), "BROADCAST:" ++ msg))).length = n - 1
    rw [List.length_map, length_filter_fd_ne sender r.clients hnodup hsender, hn]
  · -- every other member receives the framed message
    intro c hc hne
    simp only [RoomState.broadcastMessage, List.mem_map]
    exact ⟨c, List.mem_filter.mpr ⟨hc, by simpa using hne⟩, rfl⟩
  · -- the sender receives nothing
    intro p hp
    simp only [RoomState.broadcastMessage, List.mem_map] at hp
    obtain ⟨c, hc, rfl⟩ := hp
    simpa using (List.mem_filter.mp hc).2
  · -- the message lands in the history
    show msg ∈ addMessageInternal r.history msg
    unfold addMessageInternal
    by_cases hc : MAX_HISTORY_SIZE < (r.history ++ [msg]).length
    · rw [if_pos hc]
      have h1 : 1 ≤ r.history.length := by
        simp only [List.length_append, List.length_cons, List.length_nil] at hc
        unfold MAX_HISTORY_SIZE at hc
        omega
      rw [List.drop_append_of_le_length h1]
      simp
    · rw [if_neg hc]
      simp
  · -- capacity is preserved
    exact addMessageInternal_length_le r.history msg hcap
  · -- 101 distinct inserts: the oldest of the first 100 is dropped
    intro msgs m0 hlen hnd hhd
    have hsplit := (foldl_broadcast_split msgs sender ⟨r.clients, []⟩).1
    have hfold := foldl_addMessageInternal msgs [] (by simp)
    have hhist :
        (msgs.foldl (fun (rm : RoomState) m => (rm.broadcastMessage m sender).1)
          ⟨r.clients, []⟩).history = msgs.drop 1 := by
      rw [hsplit, hfold]
      simp [hlen, MAX_HISTORY_SIZE]
    refine ⟨hhist, ?_⟩
    rw [hhist]
    cases msgs with
    | nil => simp at hhd
    | cons a t =>
      simp only [List.head?_cons, Option.some.injEq] at hhd
      subst hhd
      simp only [List.drop_one, List.tail_cons]
      exact (List.nodup_cons.mp hnd).1

/-- **C5 witness**: a three-member room; the broadcast reaches exactly
two sockets. -/
theorem C5_broadcast_fanout_history_witness :
    ((RoomState.broadcastMessage ⟨[⟨1, "A", "i"⟩, ⟨2, "B", "j"⟩, ⟨3, "C", "k"⟩], []⟩ "hi" 1).2).length
      = 3 - 1 :=
  (C5_broadcast_fanout_history ⟨[⟨1, "A", "i"⟩, ⟨2, "B", "j"⟩, ⟨3, "C", "k"⟩], []⟩ "hi" 1 3
    (by decide) (by decide) (by decide) (by decide)).1.1

/-- Rebinding a found key in an assoc list is visible to the next
lookup (list level). -/
theorem find?_snd_map_setKey (name : String) (r : RoomState) :
    ∀ l : List (String × RoomState), (l.find? (fun p => p.1 = name)).isSome →
    Option.map (fun p => p.2)
      ((l.map (fun p => if p.1 = name then (p.1, r) else p)).find? (fun p => p.1 = name))
      = some r := by
  intro l
  induction l with
  | nil => intro h; simp at h
  | cons p rest ih =>
    intro h
    by_cases hp : p.1 = name
    · rw [List.map_cons, if_pos hp, List.find?_cons_of_pos _ (by simpa using hp)]
      rfl
    · rw [List.map_cons, if_neg hp, List.find?_cons_of_neg _ (by simpa using hp)]
      apply ih
      rw [List.find?_cons_of_neg _ (by simpa using hp)] at h
      exact h

/-- Rebinding an existing room in the directory is visible to the next
lookup. -/
theorem findRoom_setRoom (st : ServerState) (name : String) (r0 r : RoomState)
    (h : st.findRoom name = some r0) :
    (st.setRoom name r).findRoom name = some r := by
  unfold ServerState.findRoom at h ⊢
  unfold ServerState.setRoom
  apply find?_snd_map_setKey
  cases hf : st.rooms.find? (fun p => p.1 = name) with
  | none => rw [hf] at h; simp at h
  | some q => simp [hf]

/-- **C3 (amended).**  A client in the Room state that sends `LEAVE`
with a token that passes validation is removed from the room's member
set, the remaining members receive the leave notice, the leaving client
receives `LEFT_ROOM`, the room directory is pushed to the foyer
recipients, and the client transitions to the Foyer state — but *no*
member list (`PARTICIPANT_LIST`) is broadcast: the step's sends are
exactly the leave notice, `LEFT_ROOM`, the directory, and the foyer
re-entry room list (see `C3_leave_no_member_list_cex` for the claim's
member-list part failing concretely). -/
theorem C3_leave_room (validate : String → Bool) (userInfo : String → Option String)
    (ts : String) (st : ServerState) (ci : ClientInfo) (room : RoomState) (s : String)
    (hty : (NetworkMessage.deserialize s).body.type = "LEAVE")
    (htok : validate (NetworkMessage.deserialize s).header.token = true)
    (hcr : ci.currentRoom ≠ "")
    (hroom : st.findRoom ci.currentRoom = some room) :
    (sessionStep validate userInfo ts st ci .room (some s)).phase = .foyer
    ∧ (sessionStep validate userInfo ts st ci .room (some s)).ci
        = { ci with currentRoom := "" }
    ∧ (∃ room', (sessionStep validate userInfo ts st ci .room (some s)).st.findRoom
          ci.currentRoom = some room'
        ∧ room'.clients = room.clients.filter (fun c => c.fd ≠ ci.fd))
    ∧ (sessionStep validate userInfo ts st ci .room (some s)).sends
        = (room.broadcastMessage ((createBroadcastMessage ts "SERVER"
              (ci.name ++ " left the room")).serialize) ci.fd).2
          ++ [(ci.fd, (leftRoomMessage ts).serialize)]
          ++ broadcastRoomListToFoyer ts
              ((sessionStep validate userInfo ts st ci .room (some s)).st)
          ++ [sendRoomList ts
              ((sessionStep validate userInfo ts st ci .room (some s)).st) ci.fd] := by
  have hleave : leaveRoom ts st ci
      = (st.setRoom ci.currentRoom
          ((room.broadcastMessage ((createBroadcastMessage ts "SERVER"
              (ci.name ++ " left the room")).serialize) ci.fd).1.removeClient ci.fd),
         { ci with currentRoom := "" },
         (room.broadcastMessage ((createBroadcastMessage ts "SERVER"
              (ci.name ++ " left the room")).serialize) ci.fd).2
          ++ [(ci.fd, (leftRoomMessage ts).serialize)]
          ++ broadcastRoomListToFoyer ts
              (st.setRoom ci.currentRoom
                ((room.broadcastMessage ((createBroadcastMessage ts "SERVER"
                    (ci.name ++ " left the room")).serialize) ci.fd).1.removeClient ci.fd))) := by
    unfold leaveRoom
    rw [if_neg hcr, hroom]
  have hstep : sessionStep validate userInfo ts st ci .room (some s)
      = ⟨(leaveRoom ts st ci).1, (leaveRoom ts st ci).2.1, .foyer,
         (leaveRoom ts st ci).2.2
           ++ [sendRoomList ts (leaveRoom ts st ci).1 (leaveRoom ts st ci).2.1.fd]⟩ := by
    unfold sessionStep
    rw [hroom]
    simp only [htok, hty]
    simp
  rw [hstep, hleave]
  refine ⟨rfl, rfl, ?_, rfl⟩
  exact ⟨_, findRoom_setRoom st ci.currentRoom room _ hroom, rfl⟩

/-- **C3 witness** for the amended theorem: Alice leaves `General`
concretely; the discharged hypotheses pin the wire message and state. -/
theorem C3_leave_room_witness :
    (sessionStep (fun _ => true) (fun _ => none) "T" demoState demoAlice
        .room (some demoLeaveWire)).phase = .foyer :=
  (C3_leave_room (fun _ => true) (fun _ => none) "T" demoState demoAlice demoRoom
    demoLeaveWire (by decide) (by decide) (by decide) (by decide)).1

/-- **C3 counterexample to the claim as stated**: in the concrete
scenario the sends of the `LEAVE` step never carry the updated member
list `PARTICIPANT_LIST(["Bob"])` — the claim's "broadcasts … the member
list" fails (the transition itself succeeds: the phase is Foyer). -/
theorem C3_leave_no_member_list_cex :
    (sessionStep (fun _ => true) (fun _ => none) "T" demoState demoAlice
        .room (some demoLeaveWire)).phase = .foyer
    ∧ ∀ p ∈ (sessionStep (fun _ => true) (fun _ => none) "T" demoState demoAlice
        .room (some demoLeaveWire)).sends,
        p.2 ≠ (createParticipantList "T" ["Bob"]).serialize := by
  decide

/-- **C6 (amended).**  After authentication, a message whose parsed body
type is none the active handler knows is *silently ignored* — no `ERROR`
reply — and the connection remains open (the loop re-enters `recv`),
both in the Foyer and in the Room state.  What closes an authenticated
connection on bad input is the per-message token check: when it fails —
as it does for a malformed envelope, whose token parses as empty — the
server replies `ERROR` and disconnects.  (During `AwaitingAuth` a
non-`AUTH` or unreadable message is fatal, per the state machine.) -/
theorem C6_post_auth_unknown_type (validate validate2 : String → Bool)
    (userInfo : String → Option String) (ts : String) (st : ServerState)
    (ci : ClientInfo) (s : String)
    (htok : validate (NetworkMessage.deserialize s).header.token = true)
    (h1 : (NetworkMessage.deserialize s).body.type ≠ "CREATE_ROOM")
    (h2 : (NetworkMessage.deserialize s).body.type ≠ "JOIN_ROOM")
    (h3 : (NetworkMessage.deserialize s).body.type ≠ "REFRESH_ROOMS")
    (h4 : (NetworkMessage.deserialize s).body.type ≠ "QUIT")
    (h5 : (NetworkMessage.deserialize s).body.type ≠ "LEAVE")
    (h6 : (NetworkMessage.deserialize s).body.type ≠ "CHAT_MESSAGE")
    (htok2 : validate2 (NetworkMessage.deserialize s).header.token = false) :
    sessionStep validate userInfo ts st ci .foyer (some s) = ⟨st, ci, .foyer, []⟩
    ∧ (∀ room, st.findRoom ci.currentRoom = some room →
        sessionStep validate userInfo ts st ci .room (some s) = ⟨st, ci, .room, []⟩)
    ∧ sessionStep validate2 userInfo ts st ci .foyer (some s)
        = ⟨st.removeClient ci.fd, ci, .disconnected,
           [(ci.fd, (createError ts "Invalid or expired token").serialize)]⟩ := by
  refine ⟨?_, ?_, ?_⟩
  · unfold sessionStep
    simp [htok, h1, h2, h3, h4]
  · intro room hroom
    unfold sessionStep
    rw [hroom]
    simp [htok, h4, h5, h6]
  · unfold sessionStep
    simp [htok2]

/-- **C6 witness**: the unknown-type envelope `BOGUS` with a valid token
is ignored in the foyer with the connection left open. -/
theorem C6_post_auth_unknown_type_witness :
    sessionStep (fun _ => true) (fun _ => none) "T" demoState demoAliceReg
        .foyer (some demoBogusWire)
      = ⟨demoState, demoAliceReg, .foyer, []⟩ :=
  (C6_post_auth_unknown_type (fun _ => true) (fun _ => false) (fun _ => none) "T"
    demoState demoAliceReg demoBogusWire (by decide) (by decide) (by decide) (by decide)
    (by decide) (by decide) (by decide) (by decide)).1

/-- **C6 counterexample to the claim as stated**: an authenticated foyer
client sending an unknown body type receives *no* `ERROR` (the step's
sends are empty, though the claimed reply would be required), and a
malformed envelope does *not* leave the connection open — the empty
parsed token fails validation and the step disconnects. -/
theorem C6_unknown_type_cex :
    (sessionStep (fun _ => true) (fun _ => none) "T" demoState demoAliceReg
        .foyer (some demoBogusWire)).sends = []
    ∧ (sessionStep (fun t => t == "tokA") (fun _ => none) "T" demoState demoAliceReg
        .foyer (some "not json")).phase = .disconnected := by
  decide

/-! ### The C9 round-trip: the parser inverts the serializer -/

/-- Decoding a dumped hex digit recovers its value. -/
theorem hexNib_hexDig (n : Nat) (h : n < 16) : hexNib (hexDig n) = some n := by
  interval_cases n <;> decide

/-- Parsing one escaped character undoes its escaping and continues. -/
theorem parseJStr_escChar (c : Char) (u : List Char) :
    parseJStr (escChar c ++ u) = (parseJStr u).map (fun p => (c :: p.1, p.2)) := by
  unfold escChar
  by_cases h1 : c = '"'
  · subst h1; rw [parseJStr.eq_def]; rfl
  rw [if_neg h1]
  by_cases h2 : c = '\\'
  · subst h2; rw [parseJStr.eq_def]; rfl
  rw [if_neg h2]
  by_cases h3 : c = Char.ofNat 8
  · subst h3; rw [parseJStr.eq_def]; rfl
  rw [if_neg h3]
  by_cases h4 : c = Char.ofNat 9
  · subst h4; rw [parseJStr.eq_def]; rfl
  rw [if_neg h4]
  by_cases h5 : c = Char.ofNat 10
  · subst h5; rw [parseJStr.eq_def]; rfl
  rw [if_neg h5]
  by_cases h6 : c = Char.ofNat 12
  · subst h6; rw [parseJStr.eq_def]; rfl
  rw [if_neg h6]
  by_cases h7 : c = Char.ofNat 13
  · subst h7; rw [parseJStr.eq_def]; rfl
  rw [if_neg h7]
  by_cases h8 : c.toNat < 32
  · rw [if_pos h8]
    have ha : hexNib (hexDig (c.toNat / 16)) = some (c.toNat / 16) :=
      hexNib_hexDig _ (by omega)
    have hb : hexNib (hexDig (c.toNat % 16)) = some (c.toNat % 16) :=
      hexNib_hexDig _ (by omega)
    show parseJStr ('\\' :: 'u' :: '0' :: '0' :: hexDig (c.toNat / 16) :: hexDig (c.toNat % 16) :: u)
      = (parseJStr u).map (fun p => (c :: p.1, p.2))
    rw [parseJStr.eq_def]
    simp only [ha, hb, show hexNib '0' = some 0 from by decide]
    have harith : c.toNat / 16 * 16 + c.toNat % 16 = c.toNat := by omega
    simp [harith, Char.ofNat_toNat]
  · rw [if_neg h8]
    show parseJStr (c :: u) = (parseJStr u).map (fun p => (c :: p.1, p.2))
    rw [parseJStr.eq_def]
    simp only [if_neg h1, if_neg h2]

/-- Parsing a fully escaped body stops exactly at the closing quote and
recovers the original characters. -/
theorem parseJStr_escChars (l : List Char) : ∀ rest : List Char,
    parseJStr (escChars l ++ '"' :: rest) = some (l, rest) := by
  induction l with
  | nil =>
    intro rest
    show parseJStr ([] ++ '"' :: rest) = some ([], rest)
    rw [List.nil_append, parseJStr.eq_def]
    rfl
  | cons c t ih =>
    intro rest
    have hsplit : escChars (c :: t) = escChar c ++ escChars t := rfl
    rw [hsplit, List.append_assoc, parseJStr_escChar, ih]
    rfl

/-- One unfolding of `parseJVal` at an object that is not empty. -/
theorem parseJVal_openBrace (f : Nat) (c1 : Char) (r : List Char) (h : ¬ c1 = '}') :
    parseJVal (f + 1) ('{' :: c1 :: r)
      = (parseJMembers f (c1 :: r)).map (fun p => (Json.obj p.1, p.2)) := by
  simp only [parseJVal]
  simp [h]

/-- One unfolding of `parseJMembers` at a key's opening quote. -/
theorem parseJMembers_quote (f : Nat) (x : List Char) :
    parseJMembers (f + 1) ('"' :: x)
      = (match parseJStr x with
         | none => none
         | some (key, r1) =>
           match r1 with
           | [] => none
           | c1 :: r2 =>
             if c1 = ':' then
               match parseJVal f r2 with
               | none => none
               | some (v, r3) =>
                 match r3 with
                 | [] => none
                 | c3 :: r4 =>
                   if c3 = ',' then
                     (parseJMembers f r4).map fun p => ((String.mk key, v) :: p.1, p.2)
                   else if c3 = '}' then some ([(String.mk key, v)], r4)
                   else none
             else none) := by
  simp only [parseJMembers]
  simp

mutual

/-- Parsing a dumped value (strings and objects) recovers it exactly,
with any remainder untouched. -/
theorem rt_val : ∀ (j : Json) (fuel : Nat) (rest : List Char),
    jsonWf j = true → (dumpChars j).length < fuel →
    parseJVal fuel (dumpChars j ++ rest) = some (j, rest)
| .null, _, _, hwf, _ => by simp [jsonWf] at hwf
| .arr _, _, _, hwf, _ => by simp [jsonWf] at hwf
| .str s, fuel, rest, _, hf => by
  cases fuel with
  | zero => exact absurd hf (Nat.not_lt_zero _)
  | succ f =>
    have harg : dumpChars (.str s) ++ rest = '"' :: (escChars s.data ++ '"' :: rest) := by
      show ('"' :: (escChars s.data ++ ['"'])) ++ rest = _
      simp
    rw [harg]
    show (parseJStr (escChars s.data ++ '"' :: rest)).map
        (fun p => (Json.str (String.mk p.1), p.2)) = _
    rw [parseJStr_escChars]
    rfl
| .obj [], fuel, rest, _, hf => by
  cases fuel with
  | zero => exact absurd hf (Nat.not_lt_zero _)
  | succ f =>
    show parseJVal (f + 1) ('{' :: '}' :: rest) = some (.obj [], rest)
    rfl
| .obj ((k, v) :: ms), fuel, rest, hwf, hf => by
  cases fuel with
  | zero => exact absurd hf (Nat.not_lt_zero _)
  | succ f =>
    have hwf' : jsonWf v = true ∧ jsonWfMembers ms = true := by
      have : jsonWfMembers ((k, v) :: ms) = true := hwf
      simpa [jsonWfMembers, Bool.and_eq_true] using this
    obtain ⟨t, ht⟩ : ∃ t, dumpMembers ((k, v) :: ms) = '"' :: t := by
      cases ms with
      | nil => exact ⟨_, rfl⟩
      | cons m ms' => exact ⟨_, rfl⟩
    have harg : dumpChars (.obj ((k, v) :: ms)) ++ rest
        = '{' :: '"' :: (t ++ '}' :: rest) := by
      show ('{' :: (dumpMembers ((k, v) :: ms) ++ ['}'])) ++ rest = _
      rw [ht]
      simp
    have hlen : (dumpChars (.obj ((k, v) :: ms))).length
        = (dumpMembers ((k, v) :: ms)).length + 2 := by
      show ('{' :: (dumpMembers ((k, v) :: ms) ++ ['}'])).length = _
      simp
    rw [harg, parseJVal_openBrace f '"' _ (by decide)]
    have hback : ('"' :: (t ++ '}' :: rest))
        = dumpMembers ((k, v) :: ms) ++ '}' :: rest := by
      rw [ht]
      rfl
    rw [hback, rt_members k v ms f rest hwf'.1 hwf'.2 (by omega)]
    rfl

/-- Parsing a dumped nonempty member list consumes it and the closing
brace, recovering the members exactly. -/
theorem rt_members : ∀ (k : String) (v : Json) (ms : List (String × Json))
    (fuel : Nat) (rest : List Char),
    jsonWf v = true → jsonWfMembers ms = true →
    (dumpMembers ((k, v) :: ms)).length + 1 < fuel →
    parseJMembers fuel (dumpMembers ((k, v) :: ms) ++ '}' :: rest)
      = some ((k, v) :: ms, rest)
| k, v, [], fuel, rest, hwv, _, hf => by
  cases fuel with
  | zero => exact absurd hf (Nat.not_lt_zero _)
  | succ f =>
    have harg : dumpMembers ((k, v) :: []) ++ '}' :: rest
        = '"' :: (escChars k.data ++ '"' :: (':' :: (dumpChars v ++ '}' :: rest))) := by
      show (('"' :: (escChars k.data ++ ['"'])) ++ ':' :: dumpChars v) ++ '}' :: rest = _
      simp
    have hlen : (dumpMembers ((k, v) :: [])).length
        = (escChars k.data).length + 3 + (dumpChars v).length := by
      show (('"' :: (escChars k.data ++ ['"'])) ++ ':' :: dumpChars v).length = _
      simp
      omega
    rw [harg, parseJMembers_quote, parseJStr_escChars]
    simp only []
    rw [rt_val v f ('}' :: rest) hwv (by omega)]
    rfl
| k, v, (k2, v2) :: ms', fuel, rest, hwv, hwms, hf => by
  cases fuel with
  | zero => exact absurd hf (Nat.not_lt_zero _)
  | succ f =>
    have hw2 : jsonWf v2 = true ∧ jsonWfMembers ms' = true := by
      simpa [jsonWfMembers, Bool.and_eq_true] using hwms
    have harg : dumpMembers ((k, v) :: (k2, v2) :: ms') ++ '}' :: rest
        = '"' :: (escChars k.data ++ '"' :: (':' :: (dumpChars v
            ++ ',' :: (dumpMembers ((k2, v2) :: ms') ++ '}' :: rest)))) := by
      show (('"' :: (escChars k.data ++ ['"'])) ++ ':' :: dumpChars v
          ++ ',' :: dumpMembers ((k2, v2) :: ms')) ++ '}' :: rest = _
      simp
    have hlen : (dumpMembers ((k, v) :: (k2, v2) :: ms')).length
        = (escChars k.data).length + 4 + (dumpChars v).length
          + (dumpMembers ((k2, v2) :: ms')).length := by
      show (('"' :: (escChars k.data ++ ['"'])) ++ ':' :: dumpChars v
          ++ ',' :: dumpMembers ((k2, v2) :: ms')).length = _
      simp
      omega
    rw [harg, parseJMembers_quote, parseJStr_escChars]
    simp only []
    rw [rt_val v f (',' :: (dumpMembers ((k2, v2) :: ms') ++ '}' :: rest)) hwv (by omega)]
    simp only []
    rw [rt_members k2 v2 ms' f rest hw2.1 hw2.2 (by omega)]
    rfl

end

/-- `json::parse` inverts `serialize` for any envelope whose JSON image
lies in the string/object fragment (every envelope built from string
fields does). -/
theorem jparse_serialize (m : NetworkMessage)
    (hwf : jsonWf (.obj [("body", m.body.toJson), ("header", m.header.toJson)]) = true) :
    jparse m.serialize
      = some (.obj [("body", m.body.toJson), ("header", m.header.toJson)]) := by
  unfold jparse
  have hdata : (NetworkMessage.serialize m).data
      = dumpChars (.obj [("body", m.body.toJson), ("header", m.header.toJson)])
        ++ [Char.ofNat 10] := rfl
  rw [hdata]
  rw [rt_val _ _ _ hwf (by simp; omega)]
  rfl

/-- **C9.** Serializing a `CHAT_MESSAGE` envelope and deserializing the
result reproduces the envelope exactly; in particular the `message`
text the receiving handler extracts (`net_msg.body.data.value("message",
"")`) is byte-for-byte the original, embedded whitespace, quotes,
backslashes and control characters included. -/
theorem C9_chat_message_roundtrip (ts token msg : String) :
    NetworkMessage.deserialize ((createChatMessage ts token msg).serialize)
      = createChatMessage ts token msg
    ∧ (((NetworkMessage.deserialize
          ((createChatMessage ts token msg).serialize)).body.data.valueStr
            "message" "").getD "")
      = msg := by
  have hj := jparse_serialize (createChatMessage ts token msg) rfl
  have hmain : NetworkMessage.deserialize ((createChatMessage ts token msg).serialize)
      = createChatMessage ts token msg := by
    unfold NetworkMessage.deserialize
    rw [hj]
    rfl
  exact ⟨hmain, by rw [hmain]; rfl⟩

end Booking
